import Mathlib

/-
Verification of mkwheelhouse (src/mkwheelhouse.py) against its specification.

The program is a thin orchestration script: it parses an S3 bucket reference,
bootstraps an index.html object, builds wheels with pip, syncs them to the
bucket with awscli, and regenerates an HTML index.  We embed the pure logic
(bucket-reference parsing, region resolution, the existence check, the
paginated listing loop, index rendering, the put_object argument construction)
directly from the source, and embed the orchestration of `run`/`parse_args`
as a trace-producing function over an environment that supplies the results
of the external calls (S3 backend responses, subprocess exit codes).

Strings are embedded as `List Char`; Python truthiness, `str.lstrip`,
`str.startswith`/`endswith` and `urlparse` are embedded on that type.
-/

deriving instance DecidableEq for Except

set_option maxRecDepth 4000

namespace Mkwheelhouse

/-- Object keys, bodies, URLs etc. are Python strings; we embed them as lists
of characters. -/
abbrev Str := List Char

/-- Error outcomes a run of the script can hit: `subprocess.check_call`
raising `CalledProcessError`, botocore client-side parameter validation
rejecting a malformed `put_object` call, the `KeyError` raised by
`resp['Contents']` in `Bucket.list`, and an S3 `ClientError` escaping
`has_key`. -/
inductive RunErr where
  | calledProcessError
  | paramValidation
  | keyError
  | clientError
  deriving DecidableEq

/-- `Bucket._get_region`: the backend's `LocationConstraint` is `None` or a
string; `if not location` is Python truthiness, so it covers both the missing
constraint and the empty string.  `'EU'` is hardcoded to `eu-west-1`; any
other non-empty constraint is returned unchanged. -/
def getRegion (location : Option Str) : Str :=
  match location with
  | none => "us-east-1".toList
  | some loc =>
    if loc = [] then "us-east-1".toList
    else if loc = "EU".toList then "eu-west-1".toList
    else loc

/-- Outcome of the `head_object` metadata probe made by `Bucket.has_key`:
either success, or a `ClientError` carrying `exc.response['Error']['Code']`
(a string such as `'404'` or `'403'`). -/
inductive HeadResult where
  | ok
  | clientError (code : Str)
  deriving DecidableEq

/-- `Bucket.has_key`: returns `True` when the probe succeeds; on a
`ClientError` it re-raises unless the error code is exactly `'404'`, in which
case it returns `False`.  The `Except` error value carries the re-raised
error's code. -/
def hasKey : HeadResult → Except Str Bool
  | HeadResult.ok => Except.ok true
  | HeadResult.clientError code =>
    if code ≠ "404".toList then Except.error code else Except.ok false

/-- The per-item filter in `Bucket.list`:
`key.startswith(self.prefix) and key.endswith(suffix)`. -/
def keyMatches (pre suf k : Str) : Bool := pre.isPrefixOf k && suf.isSuffixOf k

/-- The `while True` pagination loop of `Bucket.list`.  `pages` is the
sequence of backend responses: entry `i` is the key list of the `i`-th
`list_objects_v2` response, where an empty entry stands for a response with
no `Contents` member (S3 omits `Contents` when a page has no entries, and
`resp['Contents']` then raises `KeyError`), and `NextContinuationToken` is
present exactly when further responses follow.  Returns the number of
`list_objects_v2` calls made together with the yielded keys (or the
`KeyError`). -/
def listLoop (pre suf : Str) : List (List Str) → Nat × Except RunErr (List Str)
  | [] => (0, Except.ok [])
  | [page] =>
    if page = [] then (1, Except.error RunErr.keyError)
    else (1, Except.ok (page.filter (keyMatches pre suf)))
  | page :: q :: rest2 =>
    if page = [] then (1, Except.error RunErr.keyError)
    else
      let r := listLoop pre suf (q :: rest2)
      (r.1 + 1, r.2.map fun more => page.filter (keyMatches pre suf) ++ more)

/-- yattag's text escaping (`html_escape`): `&`, `<`, `>` become entities. -/
def htmlEscapeChar (c : Char) : Str :=
  if c = '&' then "&amp;".toList
  else if c = '<' then "&lt;".toList
  else if c = '>' then "&gt;".toList
  else [c]

/-- Escape a whole text node, character by character. -/
def htmlEscape : Str → Str
  | [] => []
  | c :: rest => htmlEscapeChar c ++ htmlEscape rest

/-- yattag's attribute escaping (`attr_escape`): `&`, `<`, `"` become
entities. -/
def attrEscapeChar (c : Char) : Str :=
  if c = '&' then "&amp;".toList
  else if c = '<' then "&lt;".toList
  else if c = '"' then "&quot;".toList
  else [c]

/-- Escape a whole attribute value, character by character. -/
def attrEscape : Str → Str
  | [] => []
  | c :: rest => attrEscapeChar c ++ attrEscape rest

/-- The markup emitted by `Bucket.make_index` for one key: yattag renders
`with tag('a', href=...): text(key)` followed by `doc.stag('br')` as
an anchor element followed by a self-closing line break. -/
def anchorFor (genUrl : Str → Str) (k : Str) : Str :=
  "<a href=\"".toList ++ attrEscape (genUrl k) ++ "\">".toList
    ++ htmlEscape k ++ "</a><br />".toList

/-- The `for key in self.list('.whl')` body of `Bucket.make_index`, applied
to the keys the listing yielded. -/
def makeIndexLoop (genUrl : Str → Str) : List Str → Str
  | [] => []
  | k :: rest => anchorFor genUrl k ++ makeIndexLoop genUrl rest

/-- `Bucket.make_index`: render the keys yielded by `self.list('.whl')`
inside a `html` element; `genUrl` stands for `self.generate_url` (pre-signed
URL generation, an external SDK call).  Propagates the `KeyError` that
`Bucket.list` can raise. -/
def makeIndex (genUrl : Str → Str) (pre : Str) (pages : List (List Str)) :
    Except RunErr Str :=
  match (listLoop pre (".whl".toList) pages).2 with
  | Except.error e => Except.error e
  | Except.ok keys =>
    Except.ok ("<html>".toList ++ makeIndexLoop genUrl keys ++ "</html>".toList)

/-- The characters of `"//"`, the network-location marker `Bucket.__init__`
prepends when the reference carries no scheme. -/
def slashSlash : Str := '/' :: '/' :: []

/-- The characters of `"s3://"`. -/
def s3Scheme : Str := 's' :: '3' :: ':' :: '/' :: '/' :: []

/-- The regex test `re.match(r'^(s3:)?//', url)`: the reference starts with
`//`, optionally preceded by `s3:`. -/
def refHasScheme (u : Str) : Bool :=
  slashSlash.isPrefixOf u || s3Scheme.isPrefixOf u

/-- Text up to the first `;`: Python's `url[:url.find(';')]` when a `;` is
present, and the whole text otherwise. -/
def dropSemi (l : Str) : Str := l.takeWhile fun c => !(c == ';')

/-- Modelled from the external CPython `urllib.parse._splitparams`: drop the
`;params` part of the *last* path segment, i.e. cut at the first `;` at or
after the last `/` (at the first `;` overall when the path has no `/`);
leave the path unchanged when that segment has no `;`. -/
def splitParams : Str → Str
  | [] => []
  | c :: rest =>
    if '/' ∈ c :: rest then
      if c = '/' ∧ '/' ∉ rest then c :: dropSemi rest
      else c :: splitParams rest
    else dropSemi (c :: rest)

/-- `Bucket.__init__`'s parsing of the bucket reference: prepend `//` when
the scheme marker is absent, then apply `urlparse` and take
`(url.netloc, url.path.lstrip('/'))`.  `urlparse` is embedded for the
relevant reference shapes: after the scheme marker, the network location
extends to the first `/`, `?` or `#`, and the path extends from there to
the first `?` or `#`; `urlparse` then splits `;params` off the last path
segment, but only when the scheme is in `uses_params` — the empty scheme
(reference without `s3://`) is in that list, the scheme `s3` is not. -/
def parseBucketRef (u : Str) : Str × Str :=
  let u2 := if refHasScheme u then u else slashSlash ++ u
  let hasS3 := s3Scheme.isPrefixOf u2
  let rest := if hasS3 then u2.drop 5 else u2.drop 2
  let netloc := rest.takeWhile fun c => !(c == '/' || c == '?' || c == '#')
  let path := (rest.drop netloc.length).takeWhile fun c => !(c == '?' || c == '#')
  let path2 := if hasS3 then path else splitParams path
  (netloc, path2.dropWhile (fun c => c == '/'))

/-- Modelled fragment of the external Python `mimetypes` module's table:
enough of it to cover HTML and text files; wheel files (`.whl`) have no
registered type, so `guess_type` returns `None` for them. -/
def mimeTable : List (Str × Str) :=
  [(".html".toList, "text/html".toList),
   (".htm".toList, "text/html".toList),
   (".txt".toList, "text/plain".toList)]

/-- Modelled from the external `mimetypes.guess_type(key)[0]`: the content
type registered for the key's file extension, or `None` when the extension
is unknown. -/
def guessType (k : Str) : Option Str :=
  (mimeTable.find? fun e => e.1.isSuffixOf k).map (fun e => e.2)

/-- The keyword arguments `Bucket.put` passes to `self.s3.put_object`.
`key` is an `Option` because `Key` is an argument the caller may or may not
supply; `contentType` is the value passed for `ContentType`, which in Python
may be `None`. -/
structure PutObjectArgs where
  bucket : Str
  body : Str
  acl : Str
  contentType : Option Str
  key : Option Str
  deriving DecidableEq

/-- `Bucket.put`, embedded directly from the source: it calls
`put_object(Bucket=self.name, Body=body, ACL=acl,
ContentType=mimetypes.guess_type(key)[0])`.  The `key` parameter is used
only for content-type guessing; no `Key` keyword argument is passed, hence
`key := none` in the constructed argument record. -/
def put (name body k acl : Str) : PutObjectArgs :=
  { bucket := name, body := body, acl := acl,
    contentType := guessType k, key := none }

/-- The remote bucket contents: an association of object keys to bodies. -/
abbrev Store := List (Str × Str)

/-- Whether the store holds an object at `k`. -/
def storeHas (store : Store) (k : Str) : Bool :=
  store.any fun e => e.1 == k

/-- Modelled from botocore's client-side behaviour of `put_object`: `Key` is
a required parameter and `ContentType`, when supplied, must be a string, so
a call missing `Key` or passing `ContentType=None` raises
`ParamValidationError` before any request is sent; a valid call stores the
body at the key (creating or overwriting the object). -/
def s3PutObject (store : Store) (a : PutObjectArgs) : Except RunErr Store :=
  match a.key, a.contentType with
  | some k, some _ =>
    Except.ok ((k, a.body) :: store.filter fun e => !(e.1 == k))
  | _, _ => Except.error RunErr.paramValidation

/-- The backend's answer to the `head_object` probe for key `k` against a
healthy bucket: success when the object exists, a `404` client error when it
does not. -/
def headFromStore (store : Store) (k : Str) : HeadResult :=
  if storeHas store k then HeadResult.ok
  else HeadResult.clientError ("404".toList)

/-- The key `'index.html'` used by `run`. -/
def indexKey : Str := "index.html".toList

/-- The bootstrap placeholder `'<!DOCTYPE html><html></html>'`. -/
def bootstrapHtml : Str := "<!DOCTYPE html><html></html>".toList

/-- Observable external actions of one run, in program order.  `genUrl`
calls made per key inside `make_index` are folded into `listWheels`, which
records the number of `list_objects_v2` calls. -/
inductive Event where
  | getBucketLocation
  | headIndex
  | putBootstrap (a : PutObjectArgs)
  | genUrl (k : Str)
  | mkdtemp
  | spawnPipWheel
  | removeExcluded
  | spawnSync (region acl : Str)
  | listWheels (calls : Nat)
  | putFinalIndex (a : PutObjectArgs)
  | rmtree
  | printUrl (u : Str)
  deriving DecidableEq

/-- Everything the external world supplies to one run: the bucket reference
and ACL from the command line, the bucket's location constraint, the initial
bucket contents, the exit codes of the `pip wheel` and `aws s3 sync`
subprocesses, the objects the sync uploads, the listing responses the
backend returns for `make_index`, and the pre-signed URL generator. -/
structure Env where
  bucketRef : Str
  acl : Str
  location : Option Str
  store : Store
  buildExit : Nat
  syncExit : Nat
  wheelUploads : Store
  pages : List (List Str)
  genUrlFn : Str → Str

/-- The orchestration of `run(args, pip_wheel_args)`, embedded statement by
statement: construct the bucket (which resolves the region), check
`has_key('index.html')` and bootstrap the index when absent, generate the
index URL, build wheels in a fresh temporary directory (abort on non-zero
exit), remove exclusions, sync (abort on non-zero exit), regenerate the
index via `make_index` and `put`, remove the temporary directory and print
the index URL.  Returns the trace of external actions, the final bucket
contents, and the error that aborted the run, if any. -/
def runModel (env : Env) : List Event × Store × Option RunErr :=
  let region := getRegion env.location
  let name := (parseBucketRef env.bucketRef).1
  let pre := (parseBucketRef env.bucketRef).2
  let ev0 := [Event.getBucketLocation, Event.headIndex]
  match hasKey (headFromStore env.store indexKey) with
  | Except.error _ => (ev0, env.store, some RunErr.clientError)
  | Except.ok found =>
    let step2 :=
      if found then (ev0, Except.ok env.store)
      else
        let a := put name bootstrapHtml indexKey env.acl
        match s3PutObject env.store a with
        | Except.error _ =>
          (ev0 ++ [Event.putBootstrap a], Except.error RunErr.paramValidation)
        | Except.ok st => (ev0 ++ [Event.putBootstrap a], Except.ok st)
    match step2 with
    | (ev, Except.error e) => (ev, env.store, some e)
    | (ev, Except.ok st1) =>
      let indexUrl := env.genUrlFn indexKey
      let ev := ev ++ [Event.genUrl indexKey, Event.mkdtemp, Event.spawnPipWheel]
      if env.buildExit ≠ 0 then (ev, st1, some RunErr.calledProcessError)
      else
        let ev := ev ++ [Event.removeExcluded, Event.spawnSync region env.acl]
        if env.syncExit ≠ 0 then (ev, st1, some RunErr.calledProcessError)
        else
          let st2 := st1 ++ env.wheelUploads
          let ev := ev ++ [Event.listWheels (listLoop pre (".whl".toList) env.pages).1]
          match makeIndex env.genUrlFn pre env.pages with
          | Except.error e => (ev, st2, some e)
          | Except.ok body =>
            let a2 := put name body indexKey env.acl
            let ev := ev ++ [Event.putFinalIndex a2]
            match s3PutObject st2 a2 with
            | Except.error _ => (ev, st2, some RunErr.paramValidation)
            | Except.ok st3 =>
              (ev ++ [Event.rmtree, Event.printUrl indexUrl], st3, none)

/-- The diagnostic `parse_args` prints to standard error when it catches
`subprocess.CalledProcessError`. -/
def diagMsg : Str := "mkwheelhouse: detected error in subprocess, aborting!".toList

/-- The lines the run prints to standard output that the spec cares about:
the final-index report emitted at the end of `run` (the `=> command` traces
of `spawn` are not modelled). -/
def stdoutOf : List Event → List Str
  | [] => []
  | Event.printUrl u :: rest =>
    ("mkwheelhouse: index written to ".toList ++ u) :: stdoutOf rest
  | _ :: rest => stdoutOf rest

/-- The whole process, `parse_args` included: run the workflow; if it raises
`CalledProcessError`, print the diagnostic to standard error and return
normally, so the interpreter exits with status 0; any other exception is
uncaught, so the interpreter prints a traceback and exits with status 1; a
completed run exits with status 0.  Returns
(exit status, stdout lines, stderr lines). -/
def mainModel (env : Env) : Nat × List Str × List Str :=
  let r := runModel env
  match r.2.2 with
  | some RunErr.calledProcessError => (0, stdoutOf r.1, [diagMsg])
  | some _ => (1, stdoutOf r.1, ["Traceback (most recent call last):".toList])
  | none => (0, stdoutOf r.1, [])

/-- A run in which the bucket already holds `index.html` and the
`pip wheel` subprocess exits with status 1. -/
def envBuildFail : Env :=
  { bucketRef := "mybucket/wheels".toList, acl := "private".toList,
    location := none, store := [(indexKey, bootstrapHtml)],
    buildExit := 1, syncExit := 0, wheelUploads := [], pages := [],
    genUrlFn := fun k => "https://s3.example/".toList ++ k }

/-- A run with no subprocess failure: the bucket holds `index.html`, both
subprocesses exit 0, and the final listing returns one wheel. -/
def envAllGood : Env :=
  { bucketRef := "mybucket".toList, acl := "private".toList,
    location := none, store := [(indexKey, bootstrapHtml)],
    buildExit := 0, syncExit := 0,
    wheelUploads := [("a-1.0.whl".toList, "w".toList)],
    pages := [["a-1.0.whl".toList]],
    genUrlFn := fun k => "https://s3.example/".toList ++ k }

/-- A run against the reference `mybucket/wheels` whose bucket holds no
`index.html` object. -/
def envNoIndex : Env :=
  { bucketRef := "mybucket/wheels".toList, acl := "private".toList,
    location := none, store := [], buildExit := 0, syncExit := 0,
    wheelUploads := [], pages := [],
    genUrlFn := fun k => "https://s3.example/".toList ++ k }

/-! ### Helper lemmas -/

/-- The pagination loop over all-non-empty pages performs one call per page
and yields the per-item filtered concatenation of the pages, in order. -/
theorem listLoop_join_filter (pre suf : Str) (pages : List (List Str))
    (h : ∀ p ∈ pages, p ≠ []) :
    listLoop pre suf pages
      = (pages.length, Except.ok ((pages.flatten).filter (keyMatches pre suf))) := by
  induction pages with
  | nil => simp [listLoop]
  | cons page rest ih =>
    have hp : page ≠ [] := h page (List.mem_cons_self _ _)
    cases rest with
    | nil => simp [listLoop, hp]
    | cons q rest2 =>
      have hr := ih (fun p hp2 => h p (List.mem_cons_of_mem _ hp2))
      simp [listLoop, hp, hr, Except.map]

/-- The existence check against a healthy backend returns whether the store
holds the key. -/
theorem hasKey_headFromStore (st : Store) (k : Str) :
    hasKey (headFromStore st k) = Except.ok (storeHas st k) := by
  by_cases h : storeHas st k
  · simp [headFromStore, h, hasKey]
  · simp [headFromStore, h, hasKey]

/-- A `put_object` call built by `Bucket.put` always fails botocore's
parameter validation, because it carries no `Key`. -/
theorem s3PutObject_put (st : Store) (n b k a : Str) :
    s3PutObject st (put n b k a) = Except.error RunErr.paramValidation := rfl

/-- `takeWhile` walks through a block whose members all satisfy the
predicate. -/
theorem takeWhile_all_append (p : Char → Bool) (l r : Str)
    (hl : ∀ c ∈ l, p c = true) :
    (l ++ r).takeWhile p = l ++ r.takeWhile p := by
  induction l with
  | nil => simp
  | cons a as ih =>
    have ha := hl a (List.mem_cons_self _ _)
    simp [List.takeWhile_cons_of_pos ha,
      ih (fun c hc => hl c (List.mem_cons_of_mem _ hc))]

/-- `takeWhile` keeps a list whose members all satisfy the predicate. -/
theorem takeWhile_all (p : Char → Bool) (l : Str) (hl : ∀ c ∈ l, p c = true) :
    l.takeWhile p = l := by
  have h := takeWhile_all_append p l [] hl
  simpa using h

/-- `dropSemi` keeps a `;`-free text unchanged. -/
theorem dropSemi_no_semi (l : Str) (h : ';' ∉ l) : dropSemi l = l := by
  refine takeWhile_all _ l fun c hc => ?_
  have e : (c == ';') = false := beq_eq_false_iff_ne.mpr fun he => h (he ▸ hc)
  simp [e]

/-- Params splitting keeps a `;`-free path unchanged. -/
theorem splitParams_no_semi (l : Str) (h : ';' ∉ l) : splitParams l = l := by
  induction l with
  | nil => rfl
  | cons c rest ih =>
    have hrest : ';' ∉ rest := fun hm => h (List.mem_cons_of_mem _ hm)
    rw [splitParams]
    by_cases hin : '/' ∈ c :: rest
    · rw [if_pos hin]
      by_cases hlast : c = '/' ∧ '/' ∉ rest
      · rw [if_pos hlast, dropSemi_no_semi rest hrest]
      · rw [if_neg hlast, ih hrest]
    · rw [if_neg hin, dropSemi_no_semi _ h]

/-- The head of a `dropWhile` result never satisfies the dropped
predicate. -/
theorem dropWhile_head_no (p : Char → Bool) (l : Str) (c : Char)
    (h : (l.dropWhile p).head? = some c) : p c = false := by
  induction l with
  | nil => simp [List.dropWhile] at h
  | cons a as ih =>
    by_cases ha : p a
    · rw [List.dropWhile_cons_of_pos ha] at h; exact ih h
    · rw [List.dropWhile_cons_of_neg ha] at h
      simp at h
      rw [← h]
      exact Bool.eq_false_iff.mpr ha

/-- A reference that starts with a bucket name containing neither `/` nor
`:` does not match the `^(s3:)?//` regex, whether or not a `/prefix` part
follows. -/
theorem refHasScheme_plain (name r : Str) (hne : name ≠ [])
    (hslash : '/' ∉ name) (hcolon : ':' ∉ name)
    (hr : r = [] ∨ ∃ t, r = '/' :: t) :
    refHasScheme (name ++ r) = false := by
  cases name with
  | nil => exact absurd rfl hne
  | cons a n1 =>
    have ha : ('/' == a) = false := by
      refine beq_eq_false_iff_ne.mpr fun h => hslash ?_
      rw [h]; exact List.mem_cons_self _ _
    have hsl : slashSlash.isPrefixOf ((a :: n1) ++ r) = false := by
      simp [slashSlash, List.isPrefixOf_cons₂, ha]
    have hs3 : s3Scheme.isPrefixOf ((a :: n1) ++ r) = false := by
      rcases n1 with _ | ⟨b, n2⟩
      · rcases hr with hr | ⟨t, hr⟩ <;> subst hr <;>
          simp [s3Scheme, List.isPrefixOf_cons₂,
            show ('3' == '/') = false by decide]
      · rcases n2 with _ | ⟨c, n3⟩
        · rcases hr with hr | ⟨t, hr⟩ <;> subst hr <;>
            simp [s3Scheme, List.isPrefixOf_cons₂,
              show (':' == '/') = false by decide]
        · have hc : (':' == c) = false := by
            refine beq_eq_false_iff_ne.mpr fun h => hcolon ?_
            rw [h]
            exact List.mem_cons_of_mem _
              (List.mem_cons_of_mem _ (List.mem_cons_self _ _))
          simp [s3Scheme, List.isPrefixOf_cons₂, hc]
    simp only [List.cons_append] at hsl hs3
    simp [refHasScheme, hsl, hs3]

/-- Parsing a scheme-less reference free of `;` and the same reference with
`s3://` prepended produce the same result: both reduce to the same
network-location and path computation on the scheme-less text, and without
a `;` the params splitting of the scheme-less parse changes nothing. -/
theorem parseBucketRef_scheme (u : Str) (hu : refHasScheme u = false)
    (hsemi : ';' ∉ u) :
    parseBucketRef u = parseBucketRef (s3Scheme ++ u) := by
  have h1 : s3Scheme.isPrefixOf (s3Scheme ++ u) = true :=
    List.isPrefixOf_iff_prefix.mpr ⟨u, rfl⟩
  have h2 : refHasScheme (s3Scheme ++ u) = true := by
    simp [refHasScheme, h1]
  have h3 : s3Scheme.isPrefixOf (slashSlash ++ u) = false := by
    simp [s3Scheme, slashSlash, List.isPrefixOf_cons₂]
  have hsp : ∀ n : Nat,
      splitParams ((u.drop n).takeWhile (fun c => !(c == '?' || c == '#')))
        = (u.drop n).takeWhile (fun c => !(c == '?' || c == '#')) := by
    intro n
    refine splitParams_no_semi _ fun hm => hsemi ?_
    exact (List.drop_sublist n u).subset
      ((List.takeWhile_prefix _).sublist.subset hm)
  simp only [parseBucketRef, hu, h2, h3, h1, Bool.false_eq_true, if_false,
    if_true]
  rw [@List.drop_left' Char slashSlash u 2 rfl,
    @List.drop_left' Char s3Scheme u 5 rfl, hsp]

/-- Closed form of the parse of `name/prefix` references: the bucket name
becomes the network location and the remainder, stripped of leading
slashes, becomes the key prefix. -/
theorem parseBucketRef_plain_closed (name pre2 : Str)
    (h1 : name ≠ []) (h2 : '/' ∉ name) (h3 : ':' ∉ name)
    (h4 : '?' ∉ name) (h5 : '#' ∉ name)
    (h6 : '?' ∉ pre2) (h7 : '#' ∉ pre2) (h8 : ';' ∉ pre2) :
    parseBucketRef (name ++ '/' :: pre2)
      = (name, pre2.dropWhile (fun c => c == '/')) := by
  have hplain := refHasScheme_plain name ('/' :: pre2) h1 h2 h3
    (Or.inr ⟨pre2, rfl⟩)
  have hs3 : s3Scheme.isPrefixOf (slashSlash ++ (name ++ '/' :: pre2)) = false := by
    simp [s3Scheme, slashSlash, List.isPrefixOf_cons₂]
  have hnet : ∀ c ∈ name, (!(c == '/' || c == '?' || c == '#')) = true := by
    intro c hc
    have e1 : (c == '/') = false := beq_eq_false_iff_ne.mpr fun h => h2 (h ▸ hc)
    have e2 : (c == '?') = false := beq_eq_false_iff_ne.mpr fun h => h4 (h ▸ hc)
    have e3 : (c == '#') = false := beq_eq_false_iff_ne.mpr fun h => h5 (h ▸ hc)
    simp [e1, e2, e3]
  have hpath : ∀ c ∈ pre2, (!(c == '?' || c == '#')) = true := by
    intro c hc
    have e2 : (c == '?') = false := beq_eq_false_iff_ne.mpr fun h => h6 (h ▸ hc)
    have e3 : (c == '#') = false := beq_eq_false_iff_ne.mpr fun h => h7 (h ▸ hc)
    simp [e2, e3]
  have htw : List.takeWhile (fun c => !(c == '/' || c == '?' || c == '#'))
      (name ++ '/' :: pre2) = name := by
    rw [takeWhile_all_append _ name ('/' :: pre2) hnet,
      List.takeWhile_cons_of_neg (by decide), List.append_nil]
  have hsemi2 : ';' ∉ '/' :: pre2 := by
    intro hm
    rcases List.mem_cons.mp hm with hm | hm
    · exact absurd hm (by decide)
    · exact h8 hm
  simp only [parseBucketRef, hplain, hs3, Bool.false_eq_true, if_false]
  rw [@List.drop_left' Char slashSlash (name ++ '/' :: pre2) 2 rfl]
  rw [htw, List.drop_left,
    List.takeWhile_cons_of_pos (by decide),
    takeWhile_all _ pre2 hpath,
    splitParams_no_semi _ hsemi2,
    List.dropWhile_cons_of_pos (by decide)]

/-- The key prefix produced by the parse never starts with a slash, for
every input reference. -/
theorem parseBucketRef_no_leading_slash (u : Str) (c : Char)
    (h : (parseBucketRef u).2.head? = some c) : c ≠ '/' := by
  intro hc
  subst hc
  simp only [parseBucketRef] at h
  have hno := dropWhile_head_no _ _ _ h
  exact absurd hno (by decide)

/-! ### Claim theorems -/

/-- C5: region resolution maps a missing or empty location constraint to
`us-east-1`, the legacy sentinel constraint `EU` to `eu-west-1`, and returns
any other non-empty constraint string unchanged. -/
theorem get_region_mapping :
    getRegion none = "us-east-1".toList
    ∧ getRegion (some []) = "us-east-1".toList
    ∧ getRegion (some ("EU".toList)) = "eu-west-1".toList
    ∧ ∀ loc : Str, loc ≠ [] → loc ≠ "EU".toList → getRegion (some loc) = loc := by
  refine ⟨rfl, by decide, by decide, ?_⟩
  intro loc h1 h2
  show (if loc = [] then "us-east-1".toList
        else if loc = "EU".toList then "eu-west-1".toList else loc) = loc
  rw [if_neg h1, if_neg h2]

/-- Witness for C5: a modern region constraint is returned verbatim. -/
theorem get_region_mapping_witness :
    "eu-central-1".toList ≠ ([] : Str)
    ∧ "eu-central-1".toList ≠ "EU".toList
    ∧ getRegion (some ("eu-central-1".toList)) = "eu-central-1".toList :=
  ⟨by decide, by decide, get_region_mapping.2.2.2 _ (by decide) (by decide)⟩

/-- C8: `has_key` returns `False` exactly when the backend reports error
code `404`, returns `True` when the probe succeeds, and re-raises any other
client error instead of masking it as absence. -/
theorem has_key_not_found_only :
    hasKey HeadResult.ok = Except.ok true
    ∧ (∀ r, hasKey r = Except.ok false ↔ r = HeadResult.clientError ("404".toList))
    ∧ ∀ code : Str, code ≠ "404".toList →
        hasKey (HeadResult.clientError code) = Except.error code := by
  refine ⟨rfl, ?_, ?_⟩
  · intro r
    cases r with
    | ok => simp [hasKey]
    | clientError code =>
      by_cases hc : code = "404".toList
      · subst hc; simp [hasKey]
      · simp [hasKey, hc]
  · intro code hc
    have hc2 : ¬code = ['4', '0', '4'] := by simpa using hc
    simp [hasKey, hc2]

/-- Witness for C8: a `403` client error is re-raised, not treated as
absence. -/
theorem has_key_not_found_only_witness :
    "403".toList ≠ "404".toList
    ∧ hasKey (HeadResult.clientError ("403".toList)) = Except.error ("403".toList) :=
  ⟨by decide, has_key_not_found_only.2.2 _ (by decide)⟩

/-- C4: when the backend splits a listing across N non-empty pages linked by
continuation tokens, `Bucket.list` makes exactly N `list_objects_v2` calls
and yields one continuous sequence: every key of every page that starts with
the bucket prefix and ends with the suffix filter, in page order, filtered
per item on both bounds rather than relying on the backend's prefix
filter. -/
theorem list_paginates_and_filters (pre suf : Str) (pages : List (List Str))
    (h : ∀ p ∈ pages, p ≠ []) :
    listLoop pre suf pages
      = (pages.length, Except.ok ((pages.flatten).filter (keyMatches pre suf))) :=
  listLoop_join_filter pre suf pages h

/-- Witness for C4: two pages whose items include a key outside the prefix
and a key without the suffix, both filtered out; two calls are made. -/
theorem list_paginates_and_filters_witness :
    (∀ p ∈ [["w/a-1.0.whl".toList, "w/notes.txt".toList],
            ["other/b-2.0.whl".toList, "w/c-3.0.whl".toList]], p ≠ ([] : List Str))
    ∧ listLoop ("w/".toList) (".whl".toList)
        [["w/a-1.0.whl".toList, "w/notes.txt".toList],
         ["other/b-2.0.whl".toList, "w/c-3.0.whl".toList]]
      = (2, Except.ok ["w/a-1.0.whl".toList, "w/c-3.0.whl".toList]) :=
  ⟨by decide,
   (list_paginates_and_filters ("w/".toList) (".whl".toList) _ (by decide)).trans
     (by decide)⟩

/-- C10: whenever some backend response page carries no entries (S3 omits
the `Contents` member then, e.g. for an empty bucket), `Bucket.list` raises
`KeyError` at `resp['Contents']` instead of yielding an empty sequence. -/
theorem list_raises_on_empty_page (pre suf : Str) (pages : List (List Str))
    (h : [] ∈ pages) :
    (listLoop pre suf pages).2 = Except.error RunErr.keyError := by
  induction pages with
  | nil => cases h
  | cons page rest ih =>
    cases rest with
    | nil =>
      have hp : page = [] := by
        rcases List.mem_cons.mp h with h1 | h2
        · exact h1.symm
        · cases h2
      subst hp
      simp [listLoop]
    | cons q rest2 =>
      by_cases hp : page = []
      · subst hp; simp [listLoop]
      · have hr : [] ∈ q :: rest2 := by
          rcases List.mem_cons.mp h with h1 | h2
          · exact absurd h1.symm hp
          · exact h2
        simp [listLoop, hp, ih hr, Except.map]

/-- Witness for C10: the single response for an empty bucket carries no
entries, and the listing fails with `KeyError`. -/
theorem list_raises_on_empty_page_witness :
    ([] ∈ [([] : List Str)])
    ∧ (listLoop [] (".whl".toList) [[]]).2 = Except.error RunErr.keyError :=
  ⟨by decide, list_raises_on_empty_page [] (".whl".toList) [[]] (by decide)⟩

/-- C7: `make_index` renders exactly the keys the listing yields that pass
the `.whl` suffix (and bucket prefix) filter, in yielded order, each as one
anchor whose href is the generated download URL and whose text is the key
(entity-escaped by yattag), followed by one `<br />`. -/
theorem make_index_renders_wheel_keys (genUrl : Str → Str) (pre : Str)
    (pages : List (List Str)) (h : ∀ p ∈ pages, p ≠ []) :
    makeIndex genUrl pre pages
      = Except.ok ("<html>".toList
          ++ makeIndexLoop genUrl
              ((pages.flatten).filter (keyMatches pre (".whl".toList)))
          ++ "</html>".toList) := by
  unfold makeIndex
  rw [listLoop_join_filter pre (".whl".toList) pages h]

/-- Witness for C7: from the listing `["a/b-1.0.whl", "a/README.txt"]` with
suffix filter `.whl`, exactly `a/b-1.0.whl` appears in the rendered index,
as one anchor followed by one line break. -/
theorem make_index_renders_wheel_keys_witness :
    (∀ p ∈ [["a/b-1.0.whl".toList, "a/README.txt".toList]], p ≠ ([] : List Str))
    ∧ makeIndex (fun k => "https://u/".toList ++ k) []
        [["a/b-1.0.whl".toList, "a/README.txt".toList]]
      = Except.ok
          ("<html><a href=\"https://u/a/b-1.0.whl\">a/b-1.0.whl</a><br /></html>".toList) :=
  ⟨by decide,
   (make_index_renders_wheel_keys (fun k => "https://u/".toList ++ k) [] _
      (by decide)).trans (by decide)⟩

/-- C6 counterexample: parsing is not scheme-invariant when the prefix part
contains a `;`.  `urlparse` splits `;params` off the last path segment only
for schemes in `uses_params`: the empty scheme (reference without `s3://`)
is in that list, the scheme `s3` is not, so `b/p;x` parses to
`("b", "p")` while `s3://b/p;x` parses to `("b", "p;x")`. -/
theorem parse_scheme_invariance_counterexample :
    parseBucketRef ("b/p;x".toList) = ("b".toList, "p".toList)
    ∧ parseBucketRef (s3Scheme ++ "b/p;x".toList) = ("b".toList, "p;x".toList)
    ∧ parseBucketRef ("b/p;x".toList)
        ≠ parseBucketRef (s3Scheme ++ "b/p;x".toList) :=
  ⟨by decide, by decide, by decide⟩

/-- C6 (amended): for bucket reference strings of the form `name[/prefix]`
containing no `;`, parsing with and without the `s3://` scheme yields
identical (name, prefix) pairs; the parse of such a `name/prefix` is
exactly `(name, prefix-without-leading-slashes)`; and for every input
whatsoever the resulting key prefix never starts with a slash. -/
theorem parse_bucket_ref_scheme_invariance :
    (∀ name pre2 : Str, name ≠ [] → '/' ∉ name → ':' ∉ name → ';' ∉ name →
        ';' ∉ pre2 →
        parseBucketRef (name ++ '/' :: pre2)
            = parseBucketRef (s3Scheme ++ (name ++ '/' :: pre2))
          ∧ parseBucketRef name = parseBucketRef (s3Scheme ++ name))
    ∧ (∀ name pre2 : Str, name ≠ [] → '/' ∉ name → ':' ∉ name → '?' ∉ name →
        '#' ∉ name → '?' ∉ pre2 → '#' ∉ pre2 → ';' ∉ pre2 →
        parseBucketRef (name ++ '/' :: pre2)
          = (name, pre2.dropWhile (fun c => c == '/')))
    ∧ ∀ u : Str, ∀ c : Char, (parseBucketRef u).2.head? = some c → c ≠ '/' := by
  refine ⟨?_, parseBucketRef_plain_closed, parseBucketRef_no_leading_slash⟩
  intro name pre2 hne hs hc hsn hsp
  have hsemi : ';' ∉ name ++ '/' :: pre2 := by
    intro hm
    rcases List.mem_append.mp hm with hm | hm
    · exact hsn hm
    · rcases List.mem_cons.mp hm with hm | hm
      · exact absurd hm (by decide)
      · exact hsp hm
  constructor
  · exact parseBucketRef_scheme _
      (refHasScheme_plain name ('/' :: pre2) hne hs hc (Or.inr ⟨pre2, rfl⟩))
      hsemi
  · refine parseBucketRef_scheme name ?_ hsn
    have h := refHasScheme_plain name [] hne hs hc (Or.inl rfl)
    simpa using h

/-- Witness for C6: `mybucket/wheels` parses the same with and without the
scheme, to `("mybucket", "wheels")`, and a parsed prefix head is never a
slash. -/
theorem parse_bucket_ref_scheme_invariance_witness :
    ("mybucket".toList ≠ ([] : Str)
      ∧ '/' ∉ "mybucket".toList ∧ ':' ∉ "mybucket".toList
      ∧ ';' ∉ "mybucket".toList ∧ ';' ∉ "wheels".toList)
    ∧ parseBucketRef ("mybucket".toList ++ '/' :: "wheels".toList)
        = parseBucketRef (s3Scheme ++ ("mybucket".toList ++ '/' :: "wheels".toList))
    ∧ parseBucketRef ("mybucket".toList ++ '/' :: "wheels".toList)
        = ("mybucket".toList, "wheels".toList.dropWhile (fun c => c == '/'))
    ∧ 'w' ≠ '/' := by
  refine ⟨⟨by decide, by decide, by decide, by decide, by decide⟩, ?_, ?_, ?_⟩
  · exact (parse_bucket_ref_scheme_invariance.1 _ _
      (by decide) (by decide) (by decide) (by decide) (by decide)).1
  · exact parse_bucket_ref_scheme_invariance.2.1 _ _
      (by decide) (by decide) (by decide) (by decide) (by decide)
      (by decide) (by decide) (by decide)
  · exact parse_bucket_ref_scheme_invariance.2.2 ("//b/wheels".toList) 'w'
      (by decide)

/-- C1 (code bug): `Bucket.put` builds its `put_object` call without any
`Key` argument — the `key` parameter only feeds content-type guessing — so
for every payload, key and ACL no object is stored at the given key, and at
the program's own bootstrap call the backend rejects the request
outright. -/
theorem put_omits_key :
    (∀ name body k acl : Str, (put name body k acl).key = none)
    ∧ (put "mybucket".toList bootstrapHtml indexKey "private".toList).contentType
        = some ("text/html".toList)
    ∧ s3PutObject [] (put "mybucket".toList bootstrapHtml indexKey "private".toList)
        = Except.error RunErr.paramValidation :=
  ⟨fun _ _ _ _ => rfl, by decide, rfl⟩

/-- C2 (code bug): when the build subprocess exits non-zero, `parse_args`
catches `CalledProcessError`, prints the diagnostic to standard error but
returns normally, so the process exits with status 0, not non-zero; and a
run with no subprocess failure never prints the final index URL, because
the index-regeneration `put` call is rejected (missing `Key`) and the
process exits 1. -/
theorem subprocess_failure_exits_zero :
    (runModel envBuildFail).2.2 = some RunErr.calledProcessError
    ∧ mainModel envBuildFail = (0, [], [diagMsg])
    ∧ (runModel envAllGood).2.2 = some RunErr.paramValidation
    ∧ mainModel envAllGood
        = (1, [], ["Traceback (most recent call last):".toList]) :=
  ⟨by decide, by decide, by decide, by decide⟩

/-- C3 (code bug): on a bucket without `index.html`, reached through the
reference `mybucket/wheels`, the bootstrap step issues a `put_object` call
carrying no `Key` (built from the unprefixed key text `'index.html'`), the
backend rejects it, the run aborts with the bucket unchanged, and a
subsequent existence check for `index.html` still returns false. -/
theorem bootstrap_put_never_stores :
    runModel envNoIndex
      = ([Event.getBucketLocation, Event.headIndex,
          Event.putBootstrap
            (put "mybucket".toList bootstrapHtml indexKey "private".toList)],
         [], some RunErr.paramValidation)
    ∧ (put "mybucket".toList bootstrapHtml indexKey "private".toList).key = none
    ∧ hasKey (headFromStore (runModel envNoIndex).2.1 indexKey) = Except.ok false :=
  ⟨by decide, rfl, by decide⟩

/-- C9: in every run in which the build subprocess was invoked and exited
non-zero, the run aborts: no sync call is made, the index-regeneration
`put` is never reached, and the temporary build directory, though created,
is never removed. -/
theorem build_failure_aborts_before_sync (env : Env)
    (hrun : Event.spawnPipWheel ∈ (runModel env).1)
    (hb : env.buildExit ≠ 0) :
    Event.mkdtemp ∈ (runModel env).1
    ∧ (∀ r a, Event.spawnSync r a ∉ (runModel env).1)
    ∧ (∀ a, Event.putFinalIndex a ∉ (runModel env).1)
    ∧ Event.rmtree ∉ (runModel env).1 := by
  by_cases h : storeHas env.store indexKey
  · have hrm : runModel env
        = ([Event.getBucketLocation, Event.headIndex, Event.genUrl indexKey,
            Event.mkdtemp, Event.spawnPipWheel], env.store,
           some RunErr.calledProcessError) := by
      simp [runModel, hasKey_headFromStore, h, hb]
    rw [hrm]
    exact ⟨by simp, fun r a => by simp, fun a => by simp, by simp⟩
  · have hrm : runModel env
        = ([Event.getBucketLocation, Event.headIndex,
            Event.putBootstrap (put (parseBucketRef env.bucketRef).1
              bootstrapHtml indexKey env.acl)],
           env.store, some RunErr.paramValidation) := by
      simp [runModel, hasKey_headFromStore, h, s3PutObject_put]
    rw [hrm] at hrun
    simp at hrun

/-- Witness for C9: the concrete failing-build run `envBuildFail` created
the temporary directory, made no sync call, never regenerated the index and
never removed the directory. -/
theorem build_failure_aborts_before_sync_witness :
    Event.mkdtemp ∈ (runModel envBuildFail).1
    ∧ (∀ r a, Event.spawnSync r a ∉ (runModel envBuildFail).1)
    ∧ (∀ a, Event.putFinalIndex a ∉ (runModel envBuildFail).1)
    ∧ Event.rmtree ∉ (runModel envBuildFail).1 :=
  build_failure_aborts_before_sync envBuildFail (by decide) (by decide)

end Mkwheelhouse
